import Mathlib

/-!
Shallow embedding of `src/index.js` (a small Express + jsforce lead-intake
service) and proofs about its field-normalization and request-handling logic.

Modelling conventions:
* JS strings are Lean `String`s (logically a `List Char`); the JS methods
  used by the source (`trim`, `split(' ')`, `join(' ')`, `toLowerCase`,
  `includes`) are given explicit executable definitions below.
  `toLowerCase` is modelled on the ASCII fragment (all patterns in the
  source are ASCII), matching `Char.toLower`.
* A JS value that may be `undefined` is an `Option String`; JS truthiness
  of such a value is the `truthy` predicate (absent or `""` is falsy).
* The two network effects (the OAuth token fetch and the CRM create call)
  are abstracted as `Except` oracles passed to the handler; the handler's
  observable effects (credential refresh, CRM create attempt) are recorded
  in an explicit event list, and `console` output of the refresher in an
  explicit log list.
* Property access `map[key]` on an object literal consults the prototype
  chain: since the key is always lower-cased first, the reachable members
  of `Object.prototype` are exactly the two whose names contain no
  upper-case letter, `constructor` (the `Object` constructor function)
  and `__proto__` (`Object.prototype` itself), both truthy non-string
  values; the embedding models them explicitly.
-/

namespace SalesforceApi

/-- JS truthiness of a possibly-undefined string value: `undefined`, `null`
and `""` are falsy, every other string is truthy. -/
def truthy : Option String → Bool
  | none => false
  | some s => !(s == "")

/-- The JS `a || b` alias chain on possibly-undefined string values. -/
def jsOr (a b : Option String) : Option String :=
  if truthy a then a else b

/-- The JS `a || 'default'` pattern: a definite string result. -/
def jsOrD (a : Option String) (d : String) : String :=
  if truthy a then a.getD "" else d

/-- The JS `a || undefined` pattern: collapse a falsy value to `undefined`. -/
def jsOrU (a : Option String) : Option String :=
  if truthy a then a else none

/-- Whitespace characters removed by JS `String.prototype.trim` (the ASCII
ones; the source never feeds it non-ASCII whitespace). -/
def isJsSpace (c : Char) : Bool :=
  c == ' ' || c == '\t' || c == '\n' || c == '\r' || c == '\x0b' || c == '\x0c'

/-- JS `s.trim()` on the character list: drop whitespace from both ends. -/
def jsTrimList (l : List Char) : List Char :=
  ((l.dropWhile isJsSpace).reverse.dropWhile isJsSpace).reverse

/-- JS `s.toLowerCase()` on the character list (ASCII fragment). -/
def jsToLower (l : List Char) : List Char :=
  l.map Char.toLower

/-- JS `s.split(sep)` for a single-character separator: split exactly at
occurrences of `sep`, keeping empty pieces, with `[""]` for the empty
string. -/
def splitChar (sep : Char) : List Char → List (List Char)
  | [] => [[]]
  | c :: cs =>
    if c = sep then [] :: splitChar sep cs
    else
      match splitChar sep cs with
      | [] => [[c]]
      | p :: ps => (c :: p) :: ps

/-- JS `parts.join(sep)` for a single-character separator. -/
def joinChar (sep : Char) : List (List Char) → List Char
  | [] => []
  | [t] => t
  | t :: ts => t ++ sep :: joinChar sep ts

/-- Bool-valued list prefix test (used to implement substring search). -/
def isPrefixList : List Char → List Char → Bool
  | [], _ => true
  | _ :: _, [] => false
  | a :: as, b :: bs => a == b && isPrefixList as bs

/-- Bool-valued substring occurrence test on character lists. -/
def includesList (pat : List Char) : List Char → Bool
  | [] => isPrefixList pat []
  | c :: t => isPrefixList pat (c :: t) || includesList pat t

/-- JS `hay.includes(pat)`. -/
def jsIncludes (hay pat : String) : Bool :=
  includesList pat.data hay.data

/-! ### HELPER: Split Name (`splitName`, src/index.js lines 66-72) -/

/-- The object `{firstName, lastName}` returned by `splitName`. -/
structure SplitNameResult where
  firstName : String
  lastName : String
deriving DecidableEq

/-- Embedding of `splitName`: `fullName.trim().split(' ')`, first part (or
`'Unknown'` when falsy) as first name, remaining parts joined with `' '`
(or `'Lead'` when falsy) as last name. -/
def splitName (fullName : String) : SplitNameResult :=
  let parts := splitChar ' ' (jsTrimList fullName.data)
  let first := parts.headD []
  let rest := joinChar ' ' (parts.drop 1)
  { firstName := if first.isEmpty then "Unknown" else String.mk first,
    lastName := if rest.isEmpty then "Lead" else String.mk rest }

/-! ### HELPER: Smart Project Detection (`detectProjectType`, lines 78-106) -/

/-- Embedding of `detectProjectType`: lower-case the space-joined
concatenation of both inputs and test the fixed chain of `includes`
patterns in source order; `undefined` (here `none`) when nothing matches. -/
def detectProjectType (projectInput scopeInput : String) : Option String :=
  let textToScan := String.mk (jsToLower (projectInput ++ " " ++ scopeInput).data)
  if jsIncludes textToScan "kitchen remodeling" then some "Kitchen remodeling"
  else if jsIncludes textToScan "bathroom remodeling" then some "Bathroom remodeling"
  else if jsIncludes textToScan "full home" then some "Full Home Remodel"
  else if jsIncludes textToScan "whole house" then some "Full Home Remodel"
  else if jsIncludes textToScan "new room" then some "New room addition"
  else if jsIncludes textToScan "home interior" then some "Home interior design"
  else if jsIncludes textToScan "interior design" then some "Home interior design"
  else if jsIncludes textToScan "kitchen" then some "Kitchen"
  else if jsIncludes textToScan "bath" then some "Bathroom"
  else if jsIncludes textToScan "basement" then some "Basement"
  else if jsIncludes textToScan "exterior" then some "Exterior"
  else if jsIncludes textToScan "deck" then some "Exterior"
  else if jsIncludes textToScan "roof" then some "Exterior"
  else if jsIncludes textToScan "adu" then some "ADU"
  else if jsIncludes textToScan "addition" then some "Addition"
  else if jsIncludes textToScan "remodel" then some "Remodeling"
  else none

/-! ### Lead source mapping (`mapLeadSource`, lines 108-122) -/

/-- The `map` object literal inside `mapLeadSource`, as an ordered
association list. -/
def sourceMap : List (String × String) :=
  [("google lsa", "Google LSA"),
   ("google calls", "Google Calls"),
   ("google form", "Google Form"),
   ("yelp", "Yelp"),
   ("houzz", "Houzz"),
   ("angi", "Angi"),
   ("porch", "Porch"),
   ("thumbtack", "Thumbtack"),
   ("meta", "Meta")]

/-- The key used for the map lookup: `source.toString().toLowerCase().trim()`
(on a string input, `toString` is the identity). -/
def normalizeSource (s : String) : String :=
  String.mk (jsTrimList (jsToLower s.data))

/-- A JS value that `map[key]` on the `map` object literal can produce:
one of the map's own string values, or one of the two truthy non-string
values inherited from `Object.prototype` that a lower-cased key can
reach — `constructor` (the `Object` constructor function) and
`__proto__` (`Object.prototype` itself). -/
inductive LeadSourceValue where
  | str : String → LeadSourceValue
  | objectConstructor : LeadSourceValue
  | objectPrototype : LeadSourceValue
deriving DecidableEq

/-- JS truthiness of a value read from the object literal: a string is
truthy when nonempty; the two inherited objects are truthy. -/
def leadSourceTruthy : LeadSourceValue → Bool
  | LeadSourceValue.str s => !(s == "")
  | LeadSourceValue.objectConstructor => true
  | LeadSourceValue.objectPrototype => true

/-- The prototype chain of an object literal, restricted to the keys the
code can produce: the key is always lower-cased, and the only members of
`Object.prototype` whose names contain no upper-case letter are
`constructor` and `__proto__`; every other lower-case key reads
`undefined`. -/
def protoValue (key : String) : Option LeadSourceValue :=
  if key == "constructor" then some LeadSourceValue.objectConstructor
  else if key == "__proto__" then some LeadSourceValue.objectPrototype
  else none

/-- JS property read `map[key]` on an object literal: an own property
wins, otherwise the prototype chain is consulted. -/
def objectGet (m : List (String × String)) (key : String) : Option LeadSourceValue :=
  match m.lookup key with
  | some v => some (LeadSourceValue.str v)
  | none => protoValue key

/-- The JS `a || d` pattern on a property-read result: the read value
when present and truthy, else the default. -/
def jsOrValue (a : Option LeadSourceValue) (d : LeadSourceValue) : LeadSourceValue :=
  match a with
  | none => d
  | some v => if leadSourceTruthy v then v else d

/-- Embedding of `mapLeadSource`: falsy input (absent or `""`) gives
`'Referral'`; otherwise the lower-cased trimmed key is read off the
`map` object literal (prototype chain included), with `'Referral'` as
the `||` fallback. -/
def mapLeadSource (source : Option String) : LeadSourceValue :=
  match source with
  | none => LeadSourceValue.str "Referral"
  | some s =>
    if s == "" then LeadSourceValue.str "Referral"
    else jsOrValue (objectGet sourceMap (normalizeSource s)) (LeadSourceValue.str "Referral")

/-- `mapLeadSource` together with the console events it emits. The source
function body contains no `console` call on any path, so the emitted log
list of the embedding is empty on every input. -/
def mapLeadSourceLogged (source : Option String) : LeadSourceValue × List String :=
  (mapLeadSource source, [])

/-! ### Salesforce OAuth setup and Credential Refresher (lines 14-49) -/

/-- The environment variables the modelled code reads after startup
(`process.env` values may be absent). -/
structure Env where
  X_API_KEY : Option String
  SF_REFRESH_TOKEN : Option String
deriving DecidableEq

/-- The parsed JSON of the OAuth token endpoint response; either field may
be absent. -/
structure TokenResp where
  access_token : Option String
  instance_url : Option String
deriving DecidableEq

/-- The mutable fields of the process-wide `conn` object that the code
assigns (`undefined` at startup). -/
structure ConnState where
  accessToken : Option String
  instanceUrl : Option String
  refreshToken : Option String
deriving DecidableEq

/-- Outcome of the `fetch` + `response.json()` of the token endpoint:
`Except.error m` is a rejected promise (network or parse failure) carrying
the error message `m`; `Except.ok` carries the parsed JSON body. -/
abbrev TokenFetchOutcome := Except String TokenResp

/-- Embedding of `connectSalesforce`: on a truthy `access_token` the three
`conn` fields are assigned and a success line is logged; a missing/falsy
`access_token` raises `'Salesforce auth failed'` and a rejected fetch
raises its own message, both caught by the `catch` block, which logs the
message and performs no assignment. Returns the new credential state and
the logged console lines. -/
def connectSalesforce (env : Env) (st : ConnState) (outcome : TokenFetchOutcome) :
    ConnState × List String :=
  match outcome with
  | Except.error m => (st, ["❌ Salesforce Connection Error: " ++ m])
  | Except.ok token =>
    if truthy token.access_token then
      ({ accessToken := token.access_token,
         instanceUrl := token.instance_url,
         refreshToken := env.SF_REFRESH_TOKEN },
       ["✅ Salesforce connected"])
    else
      (st, ["❌ Salesforce Connection Error: " ++ "Salesforce auth failed"])

/-! ### CREATE LEAD API (`app.post('/lead')`, lines 127-175) -/

/-- The recognized keys of the inbound JSON body (`req.body`); every field
may be absent. The two keys spelled with a space in the source,
`'Project Type'` and `'Scope of Work'`, are named `projectTypeSpaced` and
`scopeOfWorkSpaced` here. -/
structure RequestBody where
  full_name : Option String := none
  Name : Option String := none
  source : Option String := none
  Source : Option String := none
  project_type : Option String := none
  projectTypeSpaced : Option String := none
  scope : Option String := none
  description : Option String := none
  scopeOfWorkSpaced : Option String := none
  company : Option String := none
  Company : Option String := none
  email : Option String := none
  Email : Option String := none
  phone : Option String := none
  Phone : Option String := none
deriving DecidableEq

/-- Step 1 of the handler: `req.body.full_name || req.body.Name || 'Unknown Lead'`. -/
def resolveFullName (b : RequestBody) : String :=
  jsOrD (jsOr b.full_name b.Name) "Unknown Lead"

/-- Step 1: `req.body.source || req.body.Source` (may stay undefined). -/
def resolveRawSource (b : RequestBody) : Option String :=
  jsOr b.source b.Source

/-- Step 1: `req.body.project_type || req.body['Project Type'] || ''`. -/
def resolveRawProject (b : RequestBody) : String :=
  jsOrD (jsOr b.project_type b.projectTypeSpaced) ""

/-- Step 1: `req.body.scope || req.body.description || req.body['Scope of Work'] || ''`. -/
def resolveRawScope (b : RequestBody) : String :=
  jsOrD (jsOr (jsOr b.scope b.description) b.scopeOfWorkSpaced) ""

/-- The Salesforce payload object built by the handler (step 4). `Email`
and `Phone` use `|| undefined`, so they are optional. -/
structure LeadPayload where
  FirstName : String
  LastName : String
  Company : String
  Email : Option String
  Phone : Option String
  Lead_Source__c : LeadSourceValue
  Project_Type__c : Option String
  Scope_of_Work__c : String
deriving DecidableEq

/-- Steps 1-4 of the handler: alias resolution, `splitName`,
`mapLeadSource`, `detectProjectType`, and assembly of `leadPayload`. -/
def leadPayload (b : RequestBody) : LeadPayload :=
  let fullName := resolveFullName b
  let rawSource := resolveRawSource b
  let rawProject := resolveRawProject b
  let rawScope := resolveRawScope b
  let n := splitName fullName
  { FirstName := n.firstName,
    LastName := n.lastName,
    Company := jsOrD (jsOr b.company b.Company) "Unknown",
    Email := jsOrU (jsOr b.email b.Email),
    Phone := jsOrU (jsOr b.phone b.Phone),
    Lead_Source__c := mapLeadSource rawSource,
    Project_Type__c := detectProjectType rawProject rawScope,
    Scope_of_Work__c := rawScope }

/-- JSON values appearing in the response bodies this app sends. -/
inductive JsonVal where
  | str : String → JsonVal
  | bool : Bool → JsonVal
deriving DecidableEq

/-- An HTTP response: status code and JSON body as an ordered key-value
list (a key whose JS value is `undefined` is dropped by `JSON.stringify`,
so it simply does not appear in the list). -/
structure Resp where
  status : Nat
  body : List (String × JsonVal)
deriving DecidableEq

/-- The 201 body `{success: true, leadId: result.id, detectedProject:
finalProjectType}`; when `finalProjectType` is `undefined` the key is
dropped from the serialized JSON. -/
def successBody (leadId : String) (detectedProject : Option String) :
    List (String × JsonVal) :=
  [("success", JsonVal.bool true), ("leadId", JsonVal.str leadId)] ++
    (match detectedProject with
     | none => []
     | some p => [("detectedProject", JsonVal.str p)])

/-- Observable external effects of one request. -/
inductive Event where
  | refresh
  | crmCreate
deriving DecidableEq

/-- Outcome of `conn.sobject('Lead').create(...)`: the created record id,
or the message of the thrown error. -/
abbrev CrmOutcome := Except String String

/-- Embedding of the `POST /lead` handler body: lazily refresh the
credential state when `conn.accessToken` is falsy, build the payload,
attempt the CRM create call exactly once, and answer 201 on success or
500 with the raw error message via the `catch` block. Returns the final
credential state, the response, and the emitted effect events in order. -/
def postLead (env : Env) (st : ConnState) (b : RequestBody)
    (refreshOutcome : TokenFetchOutcome) (crmOutcome : CrmOutcome) :
    ConnState × Resp × List Event :=
  let st1 := if truthy st.accessToken then st
             else (connectSalesforce env st refreshOutcome).1
  let refreshEvents : List Event :=
    if truthy st.accessToken then [] else [Event.refresh]
  let payload := leadPayload b
  match crmOutcome with
  | Except.ok id =>
    (st1, { status := 201, body := successBody id payload.Project_Type__c },
     refreshEvents ++ [Event.crmCreate])
  | Except.error m =>
    (st1, { status := 500, body := [("error", JsonVal.str m)] },
     refreshEvents ++ [Event.crmCreate])

/-- HTTP methods used by the app's routes. -/
inductive Method where
  | get
  | post
deriving DecidableEq

/-- Route dispatch after the API-key middleware has called `next()`:
`POST /lead`, `GET /health`, or Express's default 404. -/
def routeAfterAuth (env : Env) (st : ConnState) (method : Method) (path : String)
    (b : RequestBody) (refreshOutcome : TokenFetchOutcome) (crmOutcome : CrmOutcome) :
    ConnState × Resp × List Event :=
  if method = Method.post ∧ path = "/lead" then
    postLead env st b refreshOutcome crmOutcome
  else if method = Method.get ∧ path = "/health" then
    (st, { status := 200,
           body := [("status", JsonVal.str "ok"),
                    ("salesforceConnected", JsonVal.bool (truthy st.accessToken))] }, [])
  else
    (st, { status := 404, body := [] }, [])

/-- Embedding of the request pipeline: the API-key middleware (lines 54-61)
exempts `/health`, rejects a falsy or non-matching `x-api-key` header with
403 before any route handler runs, and otherwise forwards to the routes. -/
def handleHttp (env : Env) (st : ConnState) (method : Method) (path : String)
    (apiKey : Option String) (b : RequestBody)
    (refreshOutcome : TokenFetchOutcome) (crmOutcome : CrmOutcome) :
    ConnState × Resp × List Event :=
  if path = "/health" then
    routeAfterAuth env st method path b refreshOutcome crmOutcome
  else if !truthy apiKey || apiKey != env.X_API_KEY then
    (st, { status := 403, body := [("error", JsonVal.str "Forbidden – Invalid API Key")] }, [])
  else
    routeAfterAuth env st method path b refreshOutcome crmOutcome

/-! ### Spec-side definitions (from the specification text, for comparison) -/

/-- The priority pattern table of the spec's Glossary, in its fixed order:
multi-word phrases, then single words, then the generic fallback, each
paired with the classification it yields in the source. -/
def priorityPatternTable : List (String × String) :=
  [("kitchen remodeling", "Kitchen remodeling"),
   ("bathroom remodeling", "Bathroom remodeling"),
   ("full home", "Full Home Remodel"),
   ("whole house", "Full Home Remodel"),
   ("new room", "New room addition"),
   ("home interior", "Home interior design"),
   ("interior design", "Home interior design"),
   ("kitchen", "Kitchen"),
   ("bath", "Bathroom"),
   ("basement", "Basement"),
   ("exterior", "Exterior"),
   ("deck", "Exterior"),
   ("roof", "Exterior"),
   ("adu", "ADU"),
   ("addition", "Addition"),
   ("remodel", "Remodeling")]

/-- First-match evaluation of an ordered substring-pattern table, as the
spec words the project-type classification. -/
def firstMatch (text : String) : List (String × String) → Option String
  | [] => none
  | (pat, lbl) :: rest => if jsIncludes text pat then some lbl else firstMatch text rest

/-- Spec-side alias resolution with a default: the first truthy value of
the chain, else the default. -/
def firstTruthyD : List (Option String) → String → String
  | [], d => d
  | a :: rest, d => if truthy a then a.getD "" else firstTruthyD rest d

/-- Spec-side alias resolution without a default: the first truthy value
of the chain, else absent. -/
def firstTruthyOpt : List (Option String) → Option String
  | [] => none
  | a :: rest => if truthy a then a else firstTruthyOpt rest

/-- The fixed enumerated set of lead-source labels of the spec (the values
of the source's map object). -/
def leadSourceLabels : List String :=
  ["Google LSA", "Google Calls", "Google Form", "Yelp", "Houzz", "Angi",
   "Porch", "Thumbtack", "Meta"]

/-- The fixed enumerated set of project-type classifications the detector
can produce. -/
def projectTypeLabels : List String :=
  ["Kitchen remodeling", "Bathroom remodeling", "Full Home Remodel",
   "New room addition", "Home interior design", "Kitchen", "Bathroom",
   "Basement", "Exterior", "ADU", "Addition", "Remodeling"]

/-! ### Helper lemmas -/

/-- The if-chain of the source is exactly first-match evaluation of the
priority pattern table. -/
theorem detectProjectType_eq_firstMatch (p s : String) :
    detectProjectType p s =
      firstMatch (String.mk (jsToLower (p ++ " " ++ s).data)) priorityPatternTable := rfl

/-- First-match evaluation yields `none` when every pattern of the table
fails to occur. -/
theorem firstMatch_eq_none (text : String) (tbl : List (String × String))
    (h : ∀ pat ∈ tbl.map Prod.fst, jsIncludes text pat = false) :
    firstMatch text tbl = none := by
  induction tbl with
  | nil => rfl
  | cons hd tl ih =>
    obtain ⟨pat, lbl⟩ := hd
    have hpat : jsIncludes text pat = false := h pat (by simp)
    simp only [firstMatch, hpat]
    exact ih fun q hq => h q (by simp [hq])

/-- First-match evaluation yields `none` or one of the table's labels. -/
theorem firstMatch_mem (text : String) (tbl : List (String × String)) :
    firstMatch text tbl ∈ (none : Option String) :: (tbl.map Prod.snd).map some := by
  induction tbl with
  | nil => simp [firstMatch]
  | cons hd tl ih =>
    obtain ⟨pat, lbl⟩ := hd
    simp only [firstMatch]
    split
    · simp
    · rcases List.mem_cons.1 ih with h | h
      · simp [h]
      · simp only [List.map_cons, List.mem_cons]
        exact Or.inr (Or.inr (by simpa using h))

/-- A successful association-list lookup returns one of the list's
values. -/
theorem lookup_eq_some_mem (l : List (String × String)) (k v : String)
    (h : l.lookup k = some v) : v ∈ l.map Prod.snd := by
  induction l with
  | nil => simp [List.lookup] at h
  | cons hd tl ih =>
    obtain ⟨a, b⟩ := hd
    by_cases hk : k == a
    · simp only [List.lookup, hk, if_true] at h
      cases h
      simp
    · simp only [List.lookup, hk] at h
      simp only [List.map_cons, List.mem_cons]
      exact Or.inr (ih h)

/-! ## Claim theorems -/

/-- C4: for every pair of project-type and scope inputs,
`detectProjectType` lower-cases their space-joined concatenation and
returns the first matching pattern's label in the fixed priority order of
the pattern table; a text containing "kitchen remodeling" classifies as
"Kitchen remodeling"; with no matching pattern the result is unset. -/
theorem detectProjectType_priority (p s : String) :
    detectProjectType p s =
      firstMatch (String.mk (jsToLower (p ++ " " ++ s).data)) priorityPatternTable
    ∧ (jsIncludes (String.mk (jsToLower (p ++ " " ++ s).data)) "kitchen remodeling" = true →
        detectProjectType p s = some "Kitchen remodeling")
    ∧ ((∀ pat ∈ priorityPatternTable.map Prod.fst,
          jsIncludes (String.mk (jsToLower (p ++ " " ++ s).data)) pat = false) →
        detectProjectType p s = none) := by
  refine ⟨detectProjectType_eq_firstMatch p s, ?_, ?_⟩
  · intro h
    rw [detectProjectType_eq_firstMatch]
    simp only [firstMatch, priorityPatternTable, h]
    simp
  · intro h
    rw [detectProjectType_eq_firstMatch]
    exact firstMatch_eq_none _ _ h

/-- C4 witness: both implications at concrete inputs. -/
theorem detectProjectType_priority_witness :
    detectProjectType "kitchen remodeling" "" = some "Kitchen remodeling"
    ∧ detectProjectType "xyz" "qqq" = none :=
  ⟨(detectProjectType_priority "kitchen remodeling" "").2.1 (by decide),
   (detectProjectType_priority "xyz" "qqq").2.2 (by decide)⟩

/-- C5: whenever the CRM create call throws, the handler answers 500 with
the raw thrown message as the `error` field, and the CRM call was
attempted exactly once (no retry). -/
theorem postLead_error_response (env : Env) (st : ConnState) (b : RequestBody)
    (ro : TokenFetchOutcome) (m : String) :
    (postLead env st b ro (Except.error m)).2.1 =
      { status := 500, body := [("error", JsonVal.str m)] }
    ∧ ((postLead env st b ro (Except.error m)).2.2).count Event.crmCreate = 1 := by
  constructor
  · simp [postLead]
  · cases h : truthy st.accessToken <;> simp [postLead, h, List.count_cons]

/-- C7: every failing execution of the credential refresher (rejected
fetch/parse, or a token response without a truthy access token) logs the
error and leaves the credential state exactly unchanged. -/
theorem connectSalesforce_failure_state (env : Env) (st : ConnState) :
    (∀ m : String, connectSalesforce env st (Except.error m) =
      (st, ["❌ Salesforce Connection Error: " ++ m]))
    ∧ (∀ tok : TokenResp, truthy tok.access_token = false →
        connectSalesforce env st (Except.ok tok) =
          (st, ["❌ Salesforce Connection Error: " ++ "Salesforce auth failed"])) := by
  constructor
  · intro m
    rfl
  · intro tok h
    simp [connectSalesforce, h]

/-- C7 witness: a token response lacking an access token leaves a concrete
credential state untouched. -/
theorem connectSalesforce_failure_state_witness :
    connectSalesforce ⟨none, some "rt"⟩ ⟨some "t", some "u", none⟩
        (Except.ok ⟨none, some "https"⟩) =
      (⟨some "t", some "u", none⟩,
       ["❌ Salesforce Connection Error: " ++ "Salesforce auth failed"]) :=
  (connectSalesforce_failure_state ⟨none, some "rt"⟩ ⟨some "t", some "u", none⟩).2
    ⟨none, some "https"⟩ (by decide)

/-- The spec's own end-to-end example request body:
`{full_name: "Jane Doe", source: "Yelp", project_type: "", scope: "bathroom remodeling needed"}`. -/
def janeReq : RequestBody :=
  { full_name := some "Jane Doe", source := some "Yelp",
    project_type := some "", scope := some "bathroom remodeling needed" }

/-- C1 (counterexample): on the spec's end-to-end example, with a cached
token and a CRM create that returns id "00Q1", the handler does answer
201 with `success: true`, the lead id and the detected project — but the
body carries no `assignedSource` key at all, refuting the claim that a
successful response contains an `assignedSource` field. -/
theorem postLead_success_no_assignedSource :
    (postLead ⟨some "k", some "rt"⟩ ⟨some "tok", some "url", some "rt"⟩ janeReq
        (Except.ok ⟨some "tok2", some "url2"⟩) (Except.ok "00Q1")).2.1 =
      { status := 201,
        body := [("success", JsonVal.bool true), ("leadId", JsonVal.str "00Q1"),
                 ("detectedProject", JsonVal.str "Bathroom remodeling")] }
    ∧ (((postLead ⟨some "k", some "rt"⟩ ⟨some "tok", some "url", some "rt"⟩ janeReq
          (Except.ok ⟨some "tok2", some "url2"⟩) (Except.ok "00Q1")).2.1.body.map
            Prod.fst).contains "assignedSource") = false := by
  decide

/-- C1 (amended): for every request for which the CRM create call returns
a record id, the handler answers 201 with a body holding `success: true`,
the generated `leadId`, and a `detectedProject` field carrying the
classified project type when one was detected (the key is dropped when
classification is unset); no `assignedSource` field is included. -/
theorem postLead_success_response (env : Env) (st : ConnState) (b : RequestBody)
    (ro : TokenFetchOutcome) (rid : String) :
    (postLead env st b ro (Except.ok rid)).2.1 =
      { status := 201, body := successBody rid (leadPayload b).Project_Type__c }
    ∧ (((postLead env st b ro (Except.ok rid)).2.1.body.map Prod.fst).contains
        "assignedSource") = false := by
  constructor
  · simp [postLead]
  · simp only [postLead]
    cases h : (leadPayload b).Project_Type__c <;> simp [successBody, h]

/-- C3 (counterexample): the claim fails twice. An unrecognized non-empty
source such as "craigslist" reaches the "Referral" fallback with an empty
console-event list — no warning signal is emitted. And the unrecognized
non-empty source "constructor" does not yield "Referral" at all: the
object-literal read `map['constructor']` hits the truthy inherited
`Object.prototype.constructor`, which is returned instead. -/
theorem mapLeadSource_fallback_silent :
    mapLeadSourceLogged (some "craigslist") = (LeadSourceValue.str "Referral", [])
    ∧ (mapLeadSourceLogged (some "constructor")).1 ≠ LeadSourceValue.str "Referral" := by
  decide

/-- C3 (amended): an input whose lower-cased trimmed form is a key of the
source map classifies as that key's label; an input whose lower-cased
trimmed form is `constructor` or `__proto__` classifies as the truthy
value inherited from `Object.prototype` (not "Referral"); any other
non-empty input classifies as "Referral". In every case no warning
signal is emitted — the fallback is silent. -/
theorem mapLeadSource_classification (s v : String) :
    (sourceMap.lookup (normalizeSource s) = some v →
      mapLeadSourceLogged (some s) = (LeadSourceValue.str v, []))
    ∧ (normalizeSource s = "constructor" →
      mapLeadSourceLogged (some s) = (LeadSourceValue.objectConstructor, []))
    ∧ (normalizeSource s = "__proto__" →
      mapLeadSourceLogged (some s) = (LeadSourceValue.objectPrototype, []))
    ∧ (sourceMap.lookup (normalizeSource s) = none →
       protoValue (normalizeSource s) = none → s ≠ "" →
      mapLeadSourceLogged (some s) = (LeadSourceValue.str "Referral", [])) := by
  refine ⟨?_, ?_, ?_, ?_⟩
  · intro h
    by_cases hs : s = ""
    · subst hs
      rw [show normalizeSource "" = "" by decide] at h
      rw [show sourceMap.lookup "" = (none : Option String) by decide] at h
      exact Option.noConfusion h
    · have hv : v ≠ "" := by
        intro he
        subst he
        have hmem := lookup_eq_some_mem sourceMap (normalizeSource s) "" h
        revert hmem
        decide
      simp [mapLeadSourceLogged, mapLeadSource, hs, objectGet, h, jsOrValue,
        leadSourceTruthy, hv]
  · intro h
    have hs : ¬ s = "" := by
      intro he
      rw [he] at h
      exact absurd h (by decide)
    have hkey : objectGet sourceMap (normalizeSource s) =
        some LeadSourceValue.objectConstructor := by
      rw [h]
      decide
    simp [mapLeadSourceLogged, mapLeadSource, hs, hkey, jsOrValue, leadSourceTruthy]
  · intro h
    have hs : ¬ s = "" := by
      intro he
      rw [he] at h
      exact absurd h (by decide)
    have hkey : objectGet sourceMap (normalizeSource s) =
        some LeadSourceValue.objectPrototype := by
      rw [h]
      decide
    simp [mapLeadSourceLogged, mapLeadSource, hs, hkey, jsOrValue, leadSourceTruthy]
  · intro h hp hs
    simp [mapLeadSourceLogged, mapLeadSource, hs, objectGet, h, hp, jsOrValue]

/-- C3 witness: all four branches of the amended classification at
concrete inputs. -/
theorem mapLeadSource_classification_witness :
    mapLeadSourceLogged (some " Yelp ") = (LeadSourceValue.str "Yelp", [])
    ∧ mapLeadSourceLogged (some "Constructor") = (LeadSourceValue.objectConstructor, [])
    ∧ mapLeadSourceLogged (some " __proto__ ") = (LeadSourceValue.objectPrototype, [])
    ∧ mapLeadSourceLogged (some "nextdoor") = (LeadSourceValue.str "Referral", []) :=
  ⟨(mapLeadSource_classification " Yelp " "Yelp").1 (by decide),
   (mapLeadSource_classification "Constructor" "Yelp").2.1 (by decide),
   (mapLeadSource_classification " __proto__ " "Yelp").2.2.1 (by decide),
   (mapLeadSource_classification "nextdoor" "Yelp").2.2.2 (by decide) (by decide)
     (by decide)⟩

/-- C6: a `POST /lead` request whose `x-api-key` header is missing or
differs from the configured secret is answered 403 with
`Forbidden – Invalid API Key`, the credential state is untouched, and no
effect event — in particular no CRM create attempt — is emitted. -/
theorem handleHttp_invalid_key (env : Env) (st : ConnState) (apiKey : Option String)
    (b : RequestBody) (ro : TokenFetchOutcome) (co : CrmOutcome)
    (h : apiKey = none ∨ apiKey ≠ env.X_API_KEY) :
    handleHttp env st Method.post "/lead" apiKey b ro co =
      (st, { status := 403,
             body := [("error", JsonVal.str "Forbidden – Invalid API Key")] },
       ([] : List Event)) := by
  have hcond : (!truthy apiKey || apiKey != env.X_API_KEY) = true := by
    rcases h with h | h
    · subst h
      rfl
    · cases hA : truthy apiKey
      · simp
      · simp [bne_iff_ne, h]
  unfold handleHttp
  rw [if_neg (by decide : ¬ ("/lead" : String) = "/health"), hcond]
  simp

/-- C6 witness: a wrong key against a concrete configured secret. -/
theorem handleHttp_invalid_key_witness :
    handleHttp ⟨some "sekret", none⟩ ⟨none, none, none⟩ Method.post "/lead"
        (some "wrong") {} (Except.error "net down") (Except.ok "00Q") =
      (⟨none, none, none⟩,
       { status := 403,
         body := [("error", JsonVal.str "Forbidden – Invalid API Key")] },
       ([] : List Event)) :=
  handleHttp_invalid_key ⟨some "sekret", none⟩ ⟨none, none, none⟩ (some "wrong")
    {} (Except.error "net down") (Except.ok "00Q") (Or.inr (by decide))

/-- C8: in every `POST /lead` handling, the refresher runs before the CRM
create call if and only if the cached access token is falsy at request
start; when a token is cached the credential state is passed through
untouched, and when none is cached the state after the request is exactly
the refresher's output awaited to completion. -/
theorem postLead_refresh_iff (env : Env) (st : ConnState) (b : RequestBody)
    (ro : TokenFetchOutcome) (co : CrmOutcome) :
    (postLead env st b ro co).2.2 =
      (if truthy st.accessToken then ([] : List Event) else [Event.refresh]) ++
        [Event.crmCreate]
    ∧ (truthy st.accessToken = true → (postLead env st b ro co).1 = st)
    ∧ (truthy st.accessToken = false →
        (postLead env st b ro co).1 = (connectSalesforce env st ro).1) := by
  refine ⟨?_, ?_, ?_⟩
  · cases co <;> cases h : truthy st.accessToken <;> simp [postLead, h]
  · intro h
    cases co <;> simp [postLead, h]
  · intro h
    cases co <;> simp [postLead, h]

/-- C8 witness: with a cached token the state is passed through; with no
token the state is the refresher's output. -/
theorem postLead_refresh_iff_witness :
    (postLead ⟨some "k", some "rt"⟩ ⟨some "cached", some "u", none⟩ {}
        (Except.error "unused") (Except.ok "00Q")).1 =
      ⟨some "cached", some "u", none⟩
    ∧ (postLead ⟨some "k", some "rt"⟩ ⟨none, none, none⟩ {}
        (Except.ok ⟨some "newtok", some "iu"⟩) (Except.ok "00Q")).1 =
      (connectSalesforce ⟨some "k", some "rt"⟩ ⟨none, none, none⟩
        (Except.ok ⟨some "newtok", some "iu"⟩)).1 :=
  ⟨(postLead_refresh_iff ⟨some "k", some "rt"⟩ ⟨some "cached", some "u", none⟩ {}
      (Except.error "unused") (Except.ok "00Q")).2.1 (by decide),
   (postLead_refresh_iff ⟨some "k", some "rt"⟩ ⟨none, none, none⟩ {}
      (Except.ok ⟨some "newtok", some "iu"⟩) (Except.ok "00Q")).2.2 (by decide)⟩

/-- A nonempty character list makes a string different from `""`. -/
theorem mk_ne_empty (l : List Char) (h : l ≠ []) : String.mk l ≠ "" := by
  intro heq
  exact h (congrArg String.data heq)

/-- Both components of `splitName` are nonempty on every input. -/
theorem splitName_ne_empty (s : String) :
    (splitName s).firstName ≠ "" ∧ (splitName s).lastName ≠ "" := by
  simp only [splitName]
  constructor
  · split
    · decide
    · rename_i h
      exact mk_ne_empty _ (by simpa using h)
  · split
    · decide
    · rename_i h
      exact mk_ne_empty _ (by simpa using h)

/-- `detectProjectType` is unset or one of the enumerated classifications. -/
theorem detectProjectType_mem (p s : String) :
    detectProjectType p s ∈ (none : Option String) :: projectTypeLabels.map some := by
  rw [detectProjectType_eq_firstMatch]
  have h := firstMatch_mem (String.mk (jsToLower (p ++ " " ++ s).data)) priorityPatternTable
  simp only [priorityPatternTable, projectTypeLabels, List.map_cons, List.map_nil,
    List.mem_cons, List.not_mem_nil, or_false] at h ⊢
  tauto

/-- C9: the code violates the claimed lead-source invariant. A request
body with `source: "constructor"` makes the object-literal read
`map['constructor']` return the truthy inherited
`Object.prototype.constructor` (the `Object` constructor function), so
the `|| 'Referral'` fallback is skipped and the payload's lead source is
neither an enumerated label nor "Referral" — while the name and
project-type clauses of the invariant do hold at this input. -/
theorem leadPayload_constructor_leak :
    (leadPayload { source := some "constructor" }).Lead_Source__c =
      LeadSourceValue.objectConstructor
    ∧ (leadPayload { source := some "constructor" }).Lead_Source__c ∉
        LeadSourceValue.str "Referral" :: leadSourceLabels.map LeadSourceValue.str
    ∧ (leadPayload { source := some "constructor" }).FirstName ≠ ""
    ∧ (leadPayload { source := some "constructor" }).LastName ≠ ""
    ∧ (leadPayload { source := some "constructor" }).Project_Type__c ∈
        (none : Option String) :: projectTypeLabels.map some := by
  decide

/-- The JS alias chain with a default agrees with first-truthy resolution. -/
theorem jsOrD_two (a b : Option String) (d : String) :
    jsOrD (jsOr a b) d = firstTruthyD [a, b] d := by
  cases h : truthy a <;> simp [jsOr, jsOrD, firstTruthyD, h]

/-- The three-alias JS chain with a default agrees with first-truthy
resolution. -/
theorem jsOrD_three (a b c : Option String) (d : String) :
    jsOrD (jsOr (jsOr a b) c) d = firstTruthyD [a, b, c] d := by
  cases ha : truthy a <;> cases hb : truthy b <;>
    simp [jsOr, jsOrD, firstTruthyD, ha, hb]

/-- The JS alias chain ending in `|| undefined` agrees with first-truthy
resolution. -/
theorem jsOrU_two (a b : Option String) :
    jsOrU (jsOr a b) = firstTruthyOpt [a, b] := by
  cases h : truthy a <;> simp [jsOr, jsOrU, firstTruthyOpt, h]

/-- Classifying the raw `source || Source` value agrees with classifying
its first-truthy resolution: a falsy leftover value and an absent one
classify identically. -/
theorem mapLeadSource_firstTruthy (a b : Option String) :
    mapLeadSource (jsOr a b) = mapLeadSource (firstTruthyOpt [a, b]) := by
  cases ha : truthy a
  · cases hb : truthy b
    · match b with
      | none => simp [jsOr, firstTruthyOpt, ha, hb]
      | some t =>
        have ht : t = "" := by
          by_contra hne
          simp [truthy, hne] at hb
        subst ht
        simp [jsOr, firstTruthyOpt, ha, hb, mapLeadSource]
    · simp [jsOr, firstTruthyOpt, ha, hb]
  · simp [jsOr, firstTruthyOpt, ha]

/-- C10: every semantic field of the handler is resolved by its fixed
alias precedence under JS truthiness — `full_name` before `Name` with
default "Unknown Lead", `source` before `Source` (classified identically
to its first-truthy resolution), `project_type` before `'Project Type'`,
`scope` before `description` before `'Scope of Work'`, `company` before
`Company` with default "Unknown", `email` before `Email`, `phone` before
`Phone` — and a present-but-empty value is skipped exactly like an absent
one, falling through to the next alias or the default. -/
theorem alias_resolution :
    (∀ b : RequestBody,
      resolveFullName b = firstTruthyD [b.full_name, b.Name] "Unknown Lead"
      ∧ (leadPayload b).Lead_Source__c =
          mapLeadSource (firstTruthyOpt [b.source, b.Source])
      ∧ resolveRawProject b = firstTruthyD [b.project_type, b.projectTypeSpaced] ""
      ∧ resolveRawScope b =
          firstTruthyD [b.scope, b.description, b.scopeOfWorkSpaced] ""
      ∧ (leadPayload b).Company = firstTruthyD [b.company, b.Company] "Unknown"
      ∧ (leadPayload b).Email = firstTruthyOpt [b.email, b.Email]
      ∧ (leadPayload b).Phone = firstTruthyOpt [b.phone, b.Phone])
    ∧ (∀ (rest : List (Option String)) (d : String),
        firstTruthyD (some "" :: rest) d = firstTruthyD rest d
        ∧ firstTruthyOpt (some "" :: rest) = firstTruthyOpt rest
        ∧ firstTruthyD (none :: rest) d = firstTruthyD rest d
        ∧ firstTruthyOpt (none :: rest) = firstTruthyOpt rest) := by
  constructor
  · intro b
    refine ⟨jsOrD_two _ _ _, ?_, jsOrD_two _ _ _, jsOrD_three _ _ _ _,
      jsOrD_two _ _ _, jsOrU_two _ _, jsOrU_two _ _⟩
    exact mapLeadSource_firstTruthy b.source b.Source
  · intro rest d
    refine ⟨?_, ?_, ?_, ?_⟩ <;> simp [firstTruthyD, firstTruthyOpt, truthy]

/-! ### Lemmas about `splitChar`, `joinChar` and `jsTrimList` -/

/-- Splitting a list free of the separator gives it back whole. -/
theorem splitChar_no_sep (sep : Char) (l : List Char) (h : sep ∉ l) :
    splitChar sep l = [l] := by
  induction l with
  | nil => rfl
  | cons c cs ih =>
    have hc : ¬ c = sep := fun hh => h (hh ▸ List.mem_cons_self c cs)
    have hcs : sep ∉ cs := fun hh => h (List.mem_cons_of_mem _ hh)
    simp only [splitChar, if_neg hc, ih hcs]

/-- Splitting past a separator-free block and one separator peels the
block off. -/
theorem splitChar_append_sep (sep : Char) (xs ys : List Char) (h : sep ∉ xs) :
    splitChar sep (xs ++ sep :: ys) = xs :: splitChar sep ys := by
  induction xs with
  | nil => simp [splitChar]
  | cons x xs ih =>
    have hx : ¬ x = sep := fun hh => h (hh ▸ List.mem_cons_self x xs)
    have hxs : sep ∉ xs := fun hh => h (List.mem_cons_of_mem _ hh)
    rw [List.cons_append]
    simp only [splitChar, if_neg hx, ih hxs]

/-- Splitting is a left inverse of joining separator-free tokens. -/
theorem splitChar_joinChar (sep : Char) (ts : List (List Char)) (t : List Char)
    (h : ∀ u ∈ t :: ts, sep ∉ u) :
    splitChar sep (joinChar sep (t :: ts)) = t :: ts := by
  induction ts generalizing t with
  | nil => exact splitChar_no_sep sep t (h t (List.mem_cons_self t []))
  | cons u ts ih =>
    have hj : joinChar sep (t :: u :: ts) = t ++ sep :: joinChar sep (u :: ts) := rfl
    rw [hj, splitChar_append_sep sep _ _ (h t (List.mem_cons_self t (u :: ts))),
      ih u (fun v hv => h v (List.mem_cons_of_mem t hv))]

/-- Joining a token list whose head is nonempty gives a nonempty list. -/
theorem joinChar_cons_ne_nil (sep : Char) (u : List Char) (ts : List (List Char))
    (hu : u ≠ []) : joinChar sep (u :: ts) ≠ [] := by
  cases ts with
  | nil => exact hu
  | cons v ts =>
    have : joinChar sep (u :: v :: ts) = u ++ sep :: joinChar sep (v :: ts) := rfl
    rw [this]
    simp

/-- The head of a joined token list is the head of its first token. -/
theorem head?_joinChar (sep a : Char) (t : List Char) (ts : List (List Char)) :
    (joinChar sep ((a :: t) :: ts)).head? = some a := by
  cases ts with
  | nil => rfl
  | cons u ts => rfl

/-- The last token of a token list, with `[]` for the empty list. -/
def lastTok : List (List Char) → List Char
  | [] => []
  | [t] => t
  | _ :: ts => lastTok ts

/-- The last token of a nonempty token list is one of its members. -/
theorem lastTok_mem (ts : List (List Char)) (h : ts ≠ []) : lastTok ts ∈ ts := by
  induction ts with
  | nil => exact absurd rfl h
  | cons t ts ih =>
    cases ts with
    | nil => simp [lastTok]
    | cons u ts => exact List.mem_cons_of_mem t (ih (by simp))

/-- The last element of a joined token list is the last element of its
last token, provided the tail tokens are nonempty. -/
theorem getLast?_joinChar (sep : Char) (ts : List (List Char)) (t : List Char)
    (h : ∀ u ∈ ts, u ≠ []) :
    (joinChar sep (t :: ts)).getLast? = (lastTok (t :: ts)).getLast? := by
  induction ts generalizing t with
  | nil => rfl
  | cons u ts ih =>
    have hj : joinChar sep (t :: u :: ts) = t ++ sep :: joinChar sep (u :: ts) := rfl
    have hu : u ≠ [] := h u (List.mem_cons_self u ts)
    have hJ : joinChar sep (u :: ts) ≠ [] := joinChar_cons_ne_nil sep u ts hu
    rw [hj, List.getLast?_append_cons]
    have hlast : lastTok (t :: u :: ts) = lastTok (u :: ts) := rfl
    rw [hlast, ← ih u (fun v hv => h v (List.mem_cons_of_mem u hv))]
    obtain ⟨j, J, hJeq⟩ : ∃ j J, joinChar sep (u :: ts) = j :: J := by
      cases hJc : joinChar sep (u :: ts) with
      | nil => exact absurd hJc hJ
      | cons j J => exact ⟨j, J, rfl⟩
    rw [hJeq, List.getLast?_cons_cons]

/-- A list contains its last element. -/
theorem mem_of_getLast?_eq (l : List Char) (c : Char) (h : l.getLast? = some c) :
    c ∈ l := by
  obtain ⟨hne, rfl⟩ := List.mem_getLast?_eq_getLast (show c ∈ l.getLast? from h)
  exact List.getLast_mem hne

/-- Dropping a prefix of failures from a list whose head fails the
predicate does nothing. -/
theorem dropWhile_head_false (p : Char → Bool) (l : List Char)
    (h : ∀ c, l.head? = some c → p c = false) : l.dropWhile p = l := by
  cases l with
  | nil => rfl
  | cons c cs =>
    rw [List.dropWhile_cons, h c rfl]
    simp

/-- JS `trim` is the identity on a list whose first and last characters
are not whitespace. -/
theorem jsTrimList_eq_self (l : List Char)
    (h1 : ∀ c, l.head? = some c → isJsSpace c = false)
    (h2 : ∀ c, l.getLast? = some c → isJsSpace c = false) :
    jsTrimList l = l := by
  unfold jsTrimList
  rw [dropWhile_head_false _ _ h1,
    dropWhile_head_false _ _ (fun c hc => h2 c (by rwa [List.head?_reverse] at hc)),
    List.reverse_reverse]

/-- A nonempty list has `isEmpty` false. -/
theorem isEmpty_false_of_ne_nil (l : List Char) (h : l ≠ []) : l.isEmpty = false := by
  cases l with
  | nil => exact absurd rfl h
  | cons c cs => rfl

/-- C2 (counterexample): the claim fails on whitespace that is not a
single space. With two consecutive spaces the remaining-token join keeps
an empty token ("Jane  Doe" gives last name " Doe", not "Doe"), and a tab
is not a separator at all ("Jane\tDoe" gives first name "Jane\tDoe", not
"Jane"), refuting the claim for inputs whose tokens are separated by runs
of whitespace other than one space. -/
theorem splitName_whitespace_counterexample :
    (splitName "Jane  Doe").lastName ≠ "Doe"
    ∧ (splitName "Jane\tDoe").firstName ≠ "Jane" := by
  decide

/-- C2 (amended): for every full-name input built from at least two
nonempty tokens free of whitespace characters and separated by exactly
one space each, `splitName` returns the first token as the first name and
the remaining tokens joined by single spaces as the last name. (Splitting
is on the single space character, so runs of several spaces leave empty
tokens in the last name and tabs or newlines are not separators.) -/
theorem splitName_single_space_tokens (t : List Char) (ts : List (List Char))
    (hts : ts ≠ [])
    (hne : ∀ u ∈ t :: ts, u ≠ [])
    (hsp : ∀ u ∈ t :: ts, ∀ c ∈ u, isJsSpace c = false) :
    splitName (String.mk (joinChar ' ' (t :: ts))) =
      { firstName := String.mk t, lastName := String.mk (joinChar ' ' ts) } := by
  have hdata : (String.mk (joinChar ' ' (t :: ts))).data = joinChar ' ' (t :: ts) := rfl
  have ht : t ≠ [] := hne t (List.mem_cons_self t ts)
  obtain ⟨a, t', rfl⟩ : ∃ a t', t = a :: t' := by
    cases t with
    | nil => exact absurd rfl ht
    | cons a t' => exact ⟨a, t', rfl⟩
  have htrim : jsTrimList (joinChar ' ' ((a :: t') :: ts)) = joinChar ' ' ((a :: t') :: ts) := by
    refine jsTrimList_eq_self _ ?_ ?_
    · intro c hc
      rw [head?_joinChar] at hc
      cases hc
      exact hsp (a :: t') (List.mem_cons_self _ ts) a (List.mem_cons_self a t')
    · intro c hc
      rw [getLast?_joinChar ' ' ts (a :: t')
        (fun u hu => hne u (List.mem_cons_of_mem _ hu))] at hc
      have hmem : lastTok ((a :: t') :: ts) ∈ (a :: t') :: ts :=
        lastTok_mem _ (by simp)
      exact hsp _ hmem c (mem_of_getLast?_eq _ c hc)
  have hnosep : ∀ u ∈ (a :: t') :: ts, ' ' ∉ u := by
    intro u hu hin
    have := hsp u hu ' ' hin
    simp [isJsSpace] at this
  have hsplit : splitChar ' ' (joinChar ' ' ((a :: t') :: ts)) = (a :: t') :: ts :=
    splitChar_joinChar ' ' ts (a :: t') hnosep
  have hrest : joinChar ' ' ts ≠ [] := by
    obtain ⟨u, ts', rfl⟩ : ∃ u ts', ts = u :: ts' := by
      cases ts with
      | nil => exact absurd rfl hts
      | cons u ts' => exact ⟨u, ts', rfl⟩
    exact joinChar_cons_ne_nil ' ' u ts' (hne u (by simp))
  simp only [splitName, hdata, htrim, hsplit, List.headD_cons, List.drop_succ_cons,
    List.drop_zero, isEmpty_false_of_ne_nil _ (List.cons_ne_nil a t'),
    isEmpty_false_of_ne_nil _ hrest, Bool.false_eq_true, if_false]

/-- C2 witness: the single-space input "Jane Doe" splits into "Jane" and
"Doe". -/
theorem splitName_single_space_tokens_witness :
    splitName (String.mk (joinChar ' ' (['J', 'a', 'n', 'e'] :: [['D', 'o', 'e']]))) =
      { firstName := String.mk ['J', 'a', 'n', 'e'],
        lastName := String.mk (joinChar ' ' [['D', 'o', 'e']]) } :=
  splitName_single_space_tokens ['J', 'a', 'n', 'e'] [['D', 'o', 'e']]
    (by decide) (by decide) (by decide)

end SalesforceApi
